import Mathlib

/-!
Shallow embedding of the nanobot agent core: the SSRF-safe fetch pipeline
(`nanobot/agent/tools/web.py`), the tool registry
(`nanobot/agent/tools/registry.py`) and the agent loop with its memory
consolidation job (`nanobot/agent/loop.py`).

Python string and `ipaddress` primitives are modelled by structural
(fuel-based) recursion over character lists so that every definition is
executable and evaluates inside the kernel.  External collaborators
(DNS resolution, the HTTP client, the LLM provider, the JSON parser and the
durable memory store) are passed in as explicit function arguments or
outcome values, following the collaborator interfaces in the specification.
-/

namespace Nanobot

/-! ## Python string primitives (model) -/

/-- Rebuild a `String` from its character list. -/
def ofChars (l : List Char) : String := ⟨l⟩

/-- Boolean test that `p` is an initial segment of `l`. -/
def startsWithList (p l : List Char) : Bool :=
  match p, l with
  | [], _ => true
  | _ :: _, [] => false
  | c :: ps, d :: ls => c == d && startsWithList ps ls

/-- Fuelled worker for `splitOnListC`; the fuel starts at the length of the
input, and every step consumes at least one character. -/
def splitOnAuxL (sep : List Char) : Nat → List Char → List Char → List (List Char)
  | _, [], acc => [acc.reverse]
  | 0, l, acc => [acc.reverse ++ l]
  | fuel + 1, c :: rest, acc =>
    if startsWithList sep (c :: rest) then
      acc.reverse :: splitOnAuxL sep fuel (List.drop (sep.length - 1) rest) []
    else
      splitOnAuxL sep fuel rest (c :: acc)

/-- Model of Python `str.split(sep)` on character lists (non-overlapping,
left to right). -/
def splitOnListC (sep l : List Char) : List (List Char) :=
  if sep = [] then [l] else splitOnAuxL sep l.length l []

/-- Model of Python `str.split(sep)`. -/
def splitStr (sep s : String) : List String := (splitOnListC sep.data s.data).map ofChars

/-- Model of Python `str.lower()`. -/
def toLowerStr (s : String) : String := ofChars (s.data.map Char.toLower)

/-- Model of Python `str.upper()`. -/
def toUpperStr (s : String) : String := ofChars (s.data.map Char.toUpper)

/-- Whitespace characters recognised by the model of Python `str.strip()`. -/
def isSpaceChar (c : Char) : Bool := c == ' ' || c == '\t' || c == '\n' || c == '\r'

/-- Strip leading and trailing whitespace from a character list. -/
def trimChars (l : List Char) : List Char :=
  ((l.dropWhile isSpaceChar).reverse.dropWhile isSpaceChar).reverse

/-- Model of Python `str.strip()`. -/
def pyStrip (s : String) : String := ofChars (trimChars s.data)

/-- Model of Python `sep.join(xs)`. -/
def joinSep (sep : String) (xs : List String) : String :=
  ofChars (List.intercalate sep.data (xs.map String.data))

/-- Model of Python string slicing `s[:n]`. -/
def pyTake (n : Nat) (s : String) : String := ofChars (s.data.take n)

/-- Model of Python list slicing `l[start:stop]` with a possibly negative
stop index (`l[a:-0]` is `l[a:0]`, i.e. empty, exactly as in Python). -/
def pySlice {α : Type} (l : List α) (start : Nat) (stop : Int) : List α :=
  let stopIdx : Nat := if stop < 0 then l.length - (-stop).toNat else min stop.toNat l.length
  (l.take stopIdx).drop start

/-! ## Model of `ipaddress.ip_address` parsing

`_is_private_ip` in `web.py` delegates textual parsing to the Python
standard library.  The parser is modelled here: dotted-quad IPv4 (decimal
octets, at most 3 digits, no leading zeros) and RFC-4291 IPv6 (hextets,
one optional `::` compression, optional embedded IPv4 tail).  Scoped IPv6
zone identifiers are not modelled. -/

/-- Numeric value of a decimal digit character. -/
def digitVal (c : Char) : Nat := c.toNat - 48

/-- Parse one decimal IPv4 octet (0-255, no leading zeros). -/
def parseDecOctet (l : List Char) : Option Nat :=
  if l.length = 0 ∨ 3 < l.length then none
  else if ¬ l.all Char.isDigit then none
  else if 1 < l.length ∧ l.head? = some '0' then none
  else
    let v := l.foldl (fun a c => a * 10 + digitVal c) 0
    if v ≤ 255 then some v else none

/-- Parse a dotted-quad IPv4 address into its 32-bit value. -/
def parseIPv4 (s : String) : Option Nat :=
  match splitStr "." s with
  | [a, b, c, d] => do
    let va ← parseDecOctet a.data
    let vb ← parseDecOctet b.data
    let vc ← parseDecOctet c.data
    let vd ← parseDecOctet d.data
    some (((va * 256 + vb) * 256 + vc) * 256 + vd)
  | _ => none

/-- Boolean test for a hexadecimal digit character. -/
def isHexDigitChar (c : Char) : Bool :=
  c.isDigit || ('a' ≤ c && c ≤ 'f') || ('A' ≤ c && c ≤ 'F')

/-- Numeric value of a hexadecimal digit character. -/
def hexDigitVal (c : Char) : Nat :=
  if c.isDigit then c.toNat - 48
  else if 'a' ≤ c then c.toNat - 87
  else c.toNat - 55

/-- Parse one IPv6 hextet (1-4 hexadecimal digits). -/
def parseHextet (l : List Char) : Option Nat :=
  if l.length = 0 ∨ 4 < l.length then none
  else if l.all isHexDigitChar then some (l.foldl (fun a c => a * 16 + hexDigitVal c) 0)
  else none

/-- Parse colon-separated IPv6 groups where only the final group may be an
embedded dotted-quad IPv4 address (contributing two 16-bit groups). -/
def parseTailGroups : List String → Option (List Nat)
  | [] => some []
  | [p] =>
    match parseHextet p.data with
    | some h => some [h]
    | none =>
      match parseIPv4 p with
      | some v => some [v / 65536, v % 65536]
      | none => none
  | p :: q :: rest => do
    let h ← parseHextet p.data
    let t ← parseTailGroups (q :: rest)
    some (h :: t)

/-- Combine 16-bit groups into a 128-bit value. -/
def groupsToNat (gs : List Nat) : Nat := gs.foldl (fun a g => a * 65536 + g) 0

/-- Parse an IPv6 address into its 128-bit value. -/
def parseIPv6 (s : String) : Option Nat :=
  match splitStr "::" s with
  | [whole] =>
    match parseTailGroups (splitStr ":" whole) with
    | some gs => if gs.length = 8 then some (groupsToNat gs) else none
    | none => none
  | [lft, rgt] =>
    let lparts := if lft = "" then [] else splitStr ":" lft
    let rparts := if rgt = "" then [] else splitStr ":" rgt
    match lparts.mapM (fun p => parseHextet p.data), parseTailGroups rparts with
    | some lg, some rg =>
      if lg.length + rg.length ≤ 7 then
        some (groupsToNat (lg ++ List.replicate (8 - (lg.length + rg.length)) 0 ++ rg))
      else none
    | _, _ => none
  | _ => none

/-- A parsed IP address (IPv4 or IPv6), as produced by
`ipaddress.ip_address`. -/
inductive IpAddr where
  | v4 (val : Nat)
  | v6 (val : Nat)
deriving DecidableEq

/-- Model of `ipaddress.ip_address(s)`: try IPv4 first, then IPv6; `none`
models the `ValueError` raised on unparseable input. -/
def ipAddress? (s : String) : Option IpAddr :=
  match parseIPv4 s with
  | some v => some (IpAddr.v4 v)
  | none =>
    match parseIPv6 s with
    | some v => some (IpAddr.v6 v)
    | none => none

/-- An IP network given by its base address and prefix length, as produced
by `ipaddress.ip_network`. -/
structure IpNetwork where
  isV6 : Bool
  addr : Nat
  prefixLen : Nat

/-- Model of `ip in network`: same version and matching network prefix
(a version mismatch yields `False`, as in CPython). -/
def ipInNetwork (ip : IpAddr) (net : IpNetwork) : Bool :=
  match ip with
  | IpAddr.v4 v =>
    !net.isV6 && decide (v / 2 ^ (32 - net.prefixLen) = net.addr / 2 ^ (32 - net.prefixLen))
  | IpAddr.v6 v =>
    net.isV6 && decide (v / 2 ^ (128 - net.prefixLen) = net.addr / 2 ^ (128 - net.prefixLen))

/-- The private/loopback/link-local/CGNAT ranges from `web.py`
(`PRIVATE_IP_RANGES`), IPv4 and IPv6. -/
def PRIVATE_IP_RANGES : List IpNetwork :=
  [ ⟨false, 0, 8⟩,
    ⟨false, 127 * 16777216, 8⟩,
    ⟨false, 10 * 16777216, 8⟩,
    ⟨false, 100 * 16777216 + 64 * 65536, 10⟩,
    ⟨false, 172 * 16777216 + 16 * 65536, 12⟩,
    ⟨false, 192 * 16777216 + 168 * 65536, 16⟩,
    ⟨false, 169 * 16777216 + 254 * 65536, 16⟩,
    ⟨true, 0, 128⟩,
    ⟨true, 1, 128⟩,
    ⟨true, 0xfc00 * 2 ^ 112, 7⟩,
    ⟨true, 0xfe80 * 2 ^ 112, 10⟩ ]

/-- The static blocked hostname set from `web.py` (`BLOCKED_HOSTNAMES`). -/
def BLOCKED_HOSTNAMES : List String := ["localhost", "metadata.google.internal", "169.254.169.254"]

/-- Embedding of `_is_private_ip` from `web.py`: parse the address and test
membership in every private range; an unparseable string (the `ValueError`
branch) yields `false`. -/
def is_private_ip (ip_str : String) : Bool :=
  match ipAddress? ip_str with
  | some ip => PRIVATE_IP_RANGES.any (fun net => ipInNetwork ip net)
  | none => false

/-! ## Model of `urllib.parse.urlparse` (the fields used by `_validate_url`) -/

/-- Boolean test that a character list is a valid URL scheme (a letter
followed by letters, digits, `+`, `-` or `.`). -/
def isSchemeChars : List Char → Bool
  | [] => false
  | c :: rest => c.isAlpha && rest.all (fun d => d.isAlphanum || d == '+' || d == '-' || d == '.')

/-- Split a URL into `(scheme, rest)` at the first `:` when the prefix is a
valid scheme, lowercasing the scheme as `urlparse` does. -/
def splitScheme (url : String) : String × String :=
  let before := url.data.takeWhile (fun c => c != ':')
  if before.length = url.data.length then ("", url)
  else if isSchemeChars before then
    (toLowerStr (ofChars before), ofChars (url.data.drop (before.length + 1)))
  else ("", url)

/-- Extract the network location: the part after a leading `//`, up to the
first `/`, `?` or `#`. -/
def takeNetlocStr (rest : String) : String :=
  if startsWithList "//".data rest.data then
    ofChars ((rest.data.drop 2).takeWhile (fun c => c != '/' && c != '?' && c != '#'))
  else ""

/-- The part of the netloc after the last `@` (drop userinfo). -/
def afterLastAt (l : List Char) : List Char := (l.reverse.takeWhile (fun c => c != '@')).reverse

/-- Model of the `hostname` property: strip userinfo, handle a bracketed
IPv6 literal, strip the port, lowercase; `none` when empty or when a
bracketed literal is unterminated (where CPython raises). -/
def hostnameOf (netloc : String) : Option String :=
  let hostinfo := afterLastAt netloc.data
  match hostinfo with
  | '[' :: inner =>
    if inner.contains ']' then
      let h := inner.takeWhile (fun c => c != ']')
      if h = [] then none else some (toLowerStr (ofChars h))
    else none
  | _ =>
    let h := hostinfo.takeWhile (fun c => c != ':')
    if h = [] then none else some (toLowerStr (ofChars h))

/-- The `urlparse` fields consumed by `_validate_url`. -/
structure UrlParts where
  scheme : String
  netloc : String
  hostname : Option String
deriving DecidableEq

/-- Model of `urllib.parse.urlparse` restricted to the consumed fields. -/
def urlparse (url : String) : UrlParts :=
  let sp := splitScheme url
  let netloc := takeNetlocStr sp.2
  { scheme := sp.1, netloc := netloc, hostname := hostnameOf netloc }

/-- Embedding of `_validate_url` from `web.py`.  Hostname resolution
(`_resolve_hostname`, a thin `socket.getaddrinfo` wrapper) is an external
collaborator passed in as `resolver`; it returns the list of resolved
address strings, empty on resolution failure. -/
def validate_url (resolver : String → List String) (url : String) : Bool × String :=
  let p := urlparse url
  if p.scheme ≠ "http" ∧ p.scheme ≠ "https" then
    (false, "Only http/https allowed, got \x27" ++ (if p.scheme = "" then "none" else p.scheme))
  else if p.netloc = "" then
    (false, "Missing domain")
  else
    match p.hostname with
    | none => (false, "Missing hostname")
    | some hostname0 =>
      let hostname := toLowerStr hostname0
      if BLOCKED_HOSTNAMES.contains hostname then
        (false, "Access to " ++ hostname ++ " is blocked")
      else
        let ips := resolver hostname
        if ips = [] then (false, "Could not resolve hostname")
        else if ips.any (fun ip => is_private_ip ip) then
          (false, "Access to private/internal addresses is blocked")
        else (true, "")

/-! ## SSRF-safe fetch pipeline (`WebFetchTool`, `web.py`) -/

/-- The redirect cap from `web.py` (`MAX_REDIRECTS`). -/
def MAX_REDIRECTS : Nat := 5

/-- The redirect status codes checked by `_fetch_with_redirect_validation`. -/
def REDIRECT_STATUSES : List Nat := [301, 302, 303, 307, 308]

/-- The fields of an `httpx.Response` consumed by the redirect loop: the
status code and the `Location` header (if any). -/
structure HttpResponse where
  status_code : Nat
  location : Option String

/-- Embedding of `WebFetchTool._fetch_with_redirect_validation`.  The HTTP
client is the external collaborator `http`, mapping a requested URL to its
response.  The result pairs the outcome (`Except.error` models the raised
exceptions) with the trace of URLs actually requested via `client.get`, in
order; the trace is the instrumentation used to state the per-hop
validation property. -/
def fetch_with_redirect_validation (resolver : String → List String)
    (http : String → HttpResponse) (url : String) (redirect_count : Nat) :
    Except String HttpResponse × List String :=
  if _hstop : MAX_REDIRECTS < redirect_count then
    (Except.error ("Too many redirects (max " ++ toString MAX_REDIRECTS ++ ")"), [])
  else
    let r := http url
    if r.status_code ∈ REDIRECT_STATUSES then
      match r.location with
      | none => (Except.error "Redirect response missing Location header", [url])
      | some redirect_url =>
        let v := validate_url resolver redirect_url
        if v.1 then
          let rest := fetch_with_redirect_validation resolver http redirect_url (redirect_count + 1)
          (rest.1, url :: rest.2)
        else
          (Except.error ("Redirect target validation failed: " ++ v.2), [url])
    else
      (Except.ok r, [url])
termination_by MAX_REDIRECTS + 1 - redirect_count
decreasing_by simp only [MAX_REDIRECTS] at *; omega

/-- Embedding of the request-issuing front half of `WebFetchTool.execute`:
validate the requested URL, then run the redirect-validating fetch starting
at redirect depth 0.  A validation failure issues no request at all. -/
def web_fetch (resolver : String → List String) (http : String → HttpResponse)
    (url : String) : Except String HttpResponse × List String :=
  let v := validate_url resolver url
  if v.1 then fetch_with_redirect_validation resolver http url 0
  else (Except.error ("URL validation failed: " ++ v.2), [])

/-! ## Tool registry (`registry.py`) -/

/-- The tool capability contract consumed by the registry: a name, the
per-tool argument validator (returning all violations) and the executor.
`Except.error` models an exception raised by the tool's own run; the
argument type `α` stays abstract (`dict[str, Any]` in the source). -/
structure Tool (α : Type) where
  name : String
  validate_params : α → List String
  exec : α → Except String String

/-- Model of the registry's name-to-tool dictionary lookup
(`self._tools.get(name)`); registration keeps names unique, so an
association list searched by name is a faithful model. -/
def registry_get {α : Type} (tools : List (Tool α)) (name : String) : Option (Tool α) :=
  tools.find? (fun t => t.name = name)

/-- Embedding of `ToolRegistry.execute`: a total function returning a
string for every input.  The four branches mirror the source: unregistered
name, argument-validation failure (all violations joined with `"; "`),
successful run, and exception during the run. -/
def registry_execute {α : Type} (tools : List (Tool α)) (name : String) (params : α) : String :=
  match registry_get tools name with
  | none => "Error: Tool \x27" ++ name ++ "\x27 not found"
  | some tool =>
    let errors := tool.validate_params params
    if errors ≠ [] then
      "Error: Invalid parameters for tool \x27" ++ name ++ "\x27: " ++
        String.intercalate "; " errors
    else
      match tool.exec params with
      | Except.ok result => result
      | Except.error e => "Error executing " ++ name ++ ": " ++ e

/-! ## Agent iteration loop (`AgentLoop._run_agent_loop`, `loop.py`) -/

/-- One tool call returned by the provider. -/
structure ToolCall where
  id : String
  name : String
  arguments : String

/-- The provider response shape consumed by the loop (`provider.chat`). -/
structure ProviderResponse where
  content : Option String
  tool_calls : List ToolCall
  has_tool_calls : Bool
  reasoning_content : Option String

/-- A message on the running list handed to the provider. -/
inductive ChatMsg where
  | user (content : String)
  | assistant (content : Option String) (tool_calls : List ToolCall) (reasoning : Option String)
  | tool (tool_call_id : String) (name : String) (content : String)

/-- Modelled from the spec: `ContextBuilder.add_assistant_message` appends
an assistant turn containing the raw calls and any reasoning annotation
(the context builder itself is outside the provided sources). -/
def add_assistant_message (messages : List ChatMsg) (content : Option String)
    (tool_calls : List ToolCall) (reasoning : Option String) : List ChatMsg :=
  messages ++ [ChatMsg.assistant content tool_calls reasoning]

/-- Modelled from the spec: `ContextBuilder.add_tool_result` appends one
tool-result turn correlated to its call id. -/
def add_tool_result (messages : List ChatMsg) (tool_call_id : String)
    (name : String) (result : String) : List ChatMsg :=
  messages ++ [ChatMsg.tool tool_call_id name result]

/-- Result of the iteration loop, instrumented with the number of provider
calls actually performed. -/
structure LoopResult where
  final_content : Option String
  tools_used : List String
  provider_calls : Nat

/-- Embedding of the `while iteration < self.max_iterations` loop of
`_run_agent_loop`.  The provider and tool execution are external
collaborators (`provider`, `exec_tool`); `iteration` is the loop counter
and `provider_calls` counts completed `provider.chat` calls. -/
def run_agent_loop_aux (provider : List ChatMsg → ProviderResponse)
    (exec_tool : ToolCall → String) (max_iterations : Nat) (messages : List ChatMsg)
    (iteration : Nat) (tools_used : List String) (provider_calls : Nat) : LoopResult :=
  if hiter : iteration < max_iterations then
    let response := provider messages
    if response.has_tool_calls then
      let messages1 := add_assistant_message messages response.content
        response.tool_calls response.reasoning_content
      let step := response.tool_calls.foldl
        (fun (acc : List ChatMsg × List String) tc =>
          (add_tool_result acc.1 tc.id tc.name (exec_tool tc), acc.2 ++ [tc.name]))
        (messages1, tools_used)
      let messages2 := step.1 ++ [ChatMsg.user "Reflect on the results and decide next steps."]
      run_agent_loop_aux provider exec_tool max_iterations messages2 (iteration + 1)
        step.2 (provider_calls + 1)
    else
      ⟨response.content, tools_used, provider_calls + 1⟩
  else
    ⟨none, tools_used, provider_calls⟩
termination_by max_iterations - iteration
decreasing_by omega

/-- Embedding of `AgentLoop._run_agent_loop`: start the iteration loop at
iteration 0 with no tools used and no provider calls performed. -/
def run_agent_loop (provider : List ChatMsg → ProviderResponse)
    (exec_tool : ToolCall → String) (max_iterations : Nat)
    (initial_messages : List ChatMsg) : LoopResult :=
  run_agent_loop_aux provider exec_tool max_iterations initial_messages 0 [] 0

/-- Embedding of the fallback substitution in `AgentLoop._process_message`:
`if final_content is None: final_content = "I've completed processing..."`. -/
def final_reply (content : Option String) : String :=
  match content with
  | none => "I\x27ve completed processing but have no response to give."
  | some s => s

/-! ## Top-level run loop (`AgentLoop.run`, `loop.py`) -/

/-- An inbound message envelope (the fields used by the run loop). -/
structure InboundMessage where
  channel : String
  sender_id : String
  chat_id : String
  content : String

/-- An outbound message envelope (the fields used by the run loop). -/
structure OutboundMessage where
  channel : String
  chat_id : String
  content : String
deriving DecidableEq

/-- The generic apology reply published by `AgentLoop.run` when processing
a message raises. -/
def apology_reply (channel chat_id : String) : OutboundMessage :=
  { channel := channel, chat_id := chat_id,
    content := "Sorry, I encountered an internal error. Please try again." }

/-- Embedding of one iteration of the `while self._running` body of
`AgentLoop.run` for a consumed message: `outcome` is the result of
`self._process_message(msg)` (`Except.error` models an unhandled
exception), and the result is the list of messages published on the bus by
this iteration. -/
def run_step (msg : InboundMessage) (outcome : Except String (Option OutboundMessage)) :
    List OutboundMessage :=
  match outcome with
  | Except.ok (some response) => [response]
  | Except.ok none => []
  | Except.error _ => [apology_reply msg.channel msg.chat_id]

/-- The run loop over a whole intake sequence: each consumed message is
processed by `run_step`, and processing always continues with the next
message regardless of the previous outcome. -/
def run_loop (steps : List (InboundMessage × Except String (Option OutboundMessage))) :
    List OutboundMessage :=
  match steps with
  | [] => []
  | (msg, outcome) :: rest => run_step msg outcome ++ run_loop rest

/-! ## Sessions and memory consolidation (`loop.py`, `_consolidate_memory`) -/

/-- One session message record, as stored by `session.add_message`:
role, content, optional timestamp and optional tool-usage annotation
(`none` models an absent dict key). -/
structure SessMsg where
  role : String
  content : String
  timestamp : Option String
  tools_used : Option (List String)
deriving DecidableEq

/-- Modelled from the spec: a `Session` (session/manager.py is outside the
provided sources) is a key, an ordered message sequence and the
`last_consolidated` cursor into it. -/
structure Session where
  key : String
  messages : List SessMsg
  last_consolidated : Nat
deriving DecidableEq

/-- Modelled from the spec: `session.add_message` appends one record to the
append-only message sequence. -/
def add_message (s : Session) (m : SessMsg) : Session :=
  { s with messages := s.messages ++ [m] }

/-- Modelled from the spec: the durable memory store collaborator
(`MemoryStore`), with a long-term body and an append-only history log. -/
structure MemoryState where
  long_term : String
  history : List String
deriving DecidableEq

/-- Modelled from the spec: `memory.read_long_term()`. -/
def read_long_term (m : MemoryState) : String := m.long_term

/-- Modelled from the spec: `memory.append_history(entry)`. -/
def append_history (m : MemoryState) (entry : String) : MemoryState :=
  { m with history := m.history ++ [entry] }

/-- Modelled from the spec: `memory.write_long_term(text)`. -/
def write_long_term (m : MemoryState) (text : String) : MemoryState :=
  { m with long_term := text }

/-- The two-field structured result parsed out of the consolidation
response by `json_repair.loads`: either a dict carrying the two optional
keys, or any non-dict value. -/
inductive JsonValue where
  | obj (history_entry : Option String) (memory_update : Option String)
  | other

/-- Embedding of the slice-selection phase of `AgentLoop._consolidate_memory`:
`some old_messages` is the slice that will be consolidated, `none` means
the job returns before calling the provider.  The windowed branch mirrors
the source guards (`len <= keep_count`, `messages_to_process <= 0`) and the
Python slice `messages[last_consolidated : -keep_count]`. -/
def consolidation_slice (memory_window : Nat) (session : Session) (archive_all : Bool) :
    Option (List SessMsg) :=
  if archive_all then some session.messages
  else
    let keep_count := memory_window / 2
    if session.messages.length ≤ keep_count then none
    else if session.messages.length ≤ session.last_consolidated then none
    else
      let old_messages := pySlice session.messages session.last_consolidated (-(keep_count : Int))
      if old_messages = [] then none else some old_messages

/-- Embedding of the transcript built by `_consolidate_memory`: one line per
message with non-empty content, carrying role, optional tool annotation,
truncated timestamp and content. -/
def transcript_lines (msgs : List SessMsg) : List String :=
  msgs.filterMap (fun m =>
    if m.content = "" then none
    else
      let tools := match m.tools_used with
        | some ts => if ts = [] then "" else " [tools: " ++ joinSep ", " ts ++ "]"
        | none => ""
      some ("[" ++ pyTake 16 (m.timestamp.getD "?") ++ "] " ++ toUpperStr m.role
        ++ tools ++ ": " ++ m.content))

/-- Embedding of the fence stripping in `_consolidate_memory`:
`text.split("\n", 1)[-1].rsplit("\x60\x60\x60", 1)[0].strip()`. -/
def strip_code_fences (text : String) : String :=
  let afterNl :=
    if text.data.contains '\n' then (text.data.dropWhile (fun c => c != '\n')).drop 1
    else text.data
  let parts := splitOnListC ("```".data) afterNl
  let beforeFence :=
    if parts.length ≤ 1 then afterNl else List.intercalate ("```".data) parts.dropLast
  ofChars (trimChars beforeFence)

/-- The provider-and-parse outcome of one consolidation attempt: `true`
exactly when the provider call returned, the stripped content is non-empty
and `json_repair.loads` produced a dict.  This mirrors the text handling in
`_consolidate_memory` (`chat` is the outcome of the single `provider.chat`
call, `Except.error` modelling a raised exception; `json_loads` models
`json_repair.loads`). -/
def chat_parse_ok (json_loads : String → JsonValue)
    (chat : Except String (Option String)) : Bool :=
  match chat with
  | Except.error _ => false
  | Except.ok content =>
    let text := pyStrip (content.getD "")
    if text = "" then false
    else
      let text2 := if startsWithList ("```".data) text.data then strip_code_fences text else text
      match json_loads text2 with
      | JsonValue.obj _ _ => true
      | JsonValue.other => false

/-- Result of one consolidation job: the session and memory afterwards and
the slice handed to the provider (`none` when the job no-ops before its
provider call). -/
structure ConsolidateResult where
  session : Session
  memory : MemoryState
  providerSlice : Option (List SessMsg)
deriving DecidableEq

/-- Embedding of `AgentLoop._consolidate_memory`.  After slice selection,
the single `provider.chat` outcome `chat` is inspected exactly as in the
source: exception, empty content or a non-dict parse end the job without
mutating anything; on success the truthy `history_entry` is appended, a
truthy changed `memory_update` overwrites the long-term body, and the
cursor advances (to 0 for an archive-all run, else to
`len(messages) - keep_count`). -/
def consolidate_memory (json_loads : String → JsonValue)
    (chat : Except String (Option String)) (memory_window : Nat)
    (memory : MemoryState) (session : Session) (archive_all : Bool) : ConsolidateResult :=
  match consolidation_slice memory_window session archive_all with
  | none => ⟨session, memory, none⟩
  | some old_messages =>
    let keep_count := if archive_all then 0 else memory_window / 2
    let current_memory := read_long_term memory
    match chat with
    | Except.error _ => ⟨session, memory, some old_messages⟩
    | Except.ok content =>
      let text := pyStrip (content.getD "")
      if text = "" then ⟨session, memory, some old_messages⟩
      else
        let text2 :=
          if startsWithList ("```".data) text.data then strip_code_fences text else text
        match json_loads text2 with
        | JsonValue.other => ⟨session, memory, some old_messages⟩
        | JsonValue.obj history_entry memory_update =>
          let memory1 := match history_entry with
            | some entry => if entry = "" then memory else append_history memory entry
            | none => memory
          let memory2 := match memory_update with
            | some update =>
              if update = "" then memory1
              else if update ≠ current_memory then write_long_term memory1 update
              else memory1
            | none => memory1
          let new_lc := if archive_all then 0 else session.messages.length - keep_count
          ⟨{ session with last_consolidated := new_lc }, memory2, some old_messages⟩

/-- The reactive consolidation trigger in `AgentLoop._process_message`:
`len(session.messages) > self.memory_window`. -/
def consolidation_trigger (memory_window : Nat) (session : Session) : Bool :=
  memory_window < session.messages.length

/-! ## The `/new` command (`AgentLoop._process_message`, `loop.py`) -/

/-- The observable effects of the `/new` branch of `_process_message`. -/
structure NewCommandResult where
  live_session : Session
  job_session : Session
  reply : OutboundMessage
  provider_calls : Nat

/-- Embedding of the `/new` branch of `_process_message`, with the source's
statement order made explicit by value passing: `messages_to_archive` is
bound to the session's messages BEFORE the clear; the live session is then
cleared (`session.clear()` modelled from the spec: empty the sequence and
reset the cursor to zero), saved and invalidated; the detached job gets a
fresh temp session over the snapshot; and the reply is produced without any
provider call (`provider_calls = 0` instruments the branch issuing no
`provider.chat` call). -/
def handle_new_command (msg : InboundMessage) (session : Session) : NewCommandResult :=
  let messages_to_archive := session.messages
  let cleared : Session := { key := session.key, messages := [], last_consolidated := 0 }
  let temp_session : Session :=
    { key := session.key, messages := messages_to_archive, last_consolidated := 0 }
  { live_session := cleared
    job_session := temp_session
    reply := { channel := msg.channel, chat_id := msg.chat_id,
               content := "New session started. Memory consolidation in progress." }
    provider_calls := 0 }

/-! ## Theorems -/

/-- Helper: an unparseable address string is never classified private. -/
theorem is_private_ip_of_unparseable (s : String) (h : ipAddress? s = none) :
    is_private_ip s = false := by
  simp [is_private_ip, h]

/-- C2: For every tool name and argument map, `ToolRegistry.execute` returns
a string and never raises (it is a total function into `String`): a
tool-not-found message when the name is unregistered, a validation-failure
message aggregating all violations reported by the tool's own validator
when validation fails, the tool's returned text on success, and an
execution-error message wrapping any exception raised during the tool's
run. -/
theorem registry_execute_cases {α : Type} (tools : List (Tool α)) (name : String) (params : α) :
    (registry_get tools name = none →
      registry_execute tools name params = "Error: Tool \x27" ++ name ++ "\x27 not found") ∧
    (∀ tool, registry_get tools name = some tool → tool.validate_params params ≠ [] →
      registry_execute tools name params =
        "Error: Invalid parameters for tool \x27" ++ name ++ "\x27: " ++
          String.intercalate "; " (tool.validate_params params)) ∧
    (∀ tool result, registry_get tools name = some tool → tool.validate_params params = [] →
      tool.exec params = Except.ok result → registry_execute tools name params = result) ∧
    (∀ tool e, registry_get tools name = some tool → tool.validate_params params = [] →
      tool.exec params = Except.error e →
      registry_execute tools name params = "Error executing " ++ name ++ ": " ++ e) := by
  refine ⟨?_, ?_, ?_, ?_⟩
  · intro h
    simp [registry_execute, h]
  · intro tool h hne
    simp [registry_execute, h, hne]
  · intro tool result h hval hok
    simp [registry_execute, h, hval, hok]
  · intro tool e h hval herr
    simp [registry_execute, h, hval, herr]

/-- Witness for C2: a registry with one always-valid tool returns the
tool's own text. -/
theorem registry_execute_cases_witness :
    registry_execute [(⟨"echo", fun _ => [], fun _ => Except.ok "done"⟩ : Tool Unit)]
      "echo" () = "done" :=
  (registry_execute_cases [(⟨"echo", fun _ => [], fun _ => Except.ok "done"⟩ : Tool Unit)]
      "echo" ()).2.2.1 ⟨"echo", fun _ => [], fun _ => Except.ok "done"⟩ "done" rfl rfl rfl

/-- C4: an inbound message whose processing raises is caught, converted to
the generic apology reply on the same channel and chat id, and the run loop
keeps processing every other message in the intake sequence: a single
failure never terminates the loop. -/
theorem run_catches_single_message_errors (msg : InboundMessage) (e : String)
    (pre post : List (InboundMessage × Except String (Option OutboundMessage))) :
    run_step msg (Except.error e) = [apology_reply msg.channel msg.chat_id] ∧
    run_loop (pre ++ (msg, Except.error e) :: post) =
      run_loop pre ++ [apology_reply msg.channel msg.chat_id] ++ run_loop post := by
  constructor
  · rfl
  · induction pre with
    | nil => simp [run_loop, run_step]
    | cons p ps ih =>
      obtain ⟨pm, po⟩ := p
      simp only [List.cons_append, run_loop, List.append_eq] at ih ⊢
      rw [ih]
      simp [List.append_assoc]

/-- C10: an input string that does not parse as an IP address makes
`_is_private_ip` return `False` (and the function is total, never raising);
consequently when every resolved address string is unparseable,
`_validate_url` does not reject the URL on the private-range account and
accepts it. -/
theorem unparseable_ips_never_private (s : String) (resolver : String → List String)
    (url : String) (host : String)
    (hparse : ipAddress? s = none)
    (hscheme : (urlparse url).scheme = "http" ∨ (urlparse url).scheme = "https")
    (hnetloc : (urlparse url).netloc ≠ "")
    (hhost : (urlparse url).hostname = some host)
    (hblocked : BLOCKED_HOSTNAMES.contains (toLowerStr host) = false)
    (hres : resolver (toLowerStr host) ≠ [])
    (hips : ∀ ip ∈ resolver (toLowerStr host), ipAddress? ip = none) :
    is_private_ip s = false ∧ validate_url resolver url = (true, "") := by
  refine ⟨is_private_ip_of_unparseable s hparse, ?_⟩
  have hany : (resolver (toLowerStr host)).any (fun ip => is_private_ip ip) = false := by
    rw [List.any_eq_false]
    intro ip hip
    simp [is_private_ip_of_unparseable ip (hips ip hip)]
  simp only [validate_url, hhost]
  rw [if_neg (by tauto)]
  rw [if_neg hnetloc]
  simp only [hblocked, Bool.false_eq_true, if_false]
  rw [if_neg hres]
  simp [hany]

/-- Witness for C10: a non-IP string is not private, and a URL whose
hostname resolves to an unparseable address string passes validation. -/
theorem unparseable_ips_never_private_witness :
    is_private_ip "not-an-ip" = false ∧
    validate_url (fun _ => ["banana"]) "http://ex/" = (true, "") :=
  unparseable_ips_never_private "not-an-ip" (fun _ => ["banana"]) "http://ex/" "ex"
    (by decide) (by decide) (by decide) (by decide) (by decide) (by decide) (by decide)

/-- Helper: the `/new` archive job consolidates exactly the snapshot. -/
theorem consolidate_providerSlice (json_loads : String → JsonValue)
    (chat : Except String (Option String)) (w : Nat) (memory : MemoryState)
    (session : Session) (archive_all : Bool) :
    (consolidate_memory json_loads chat w memory session archive_all).providerSlice =
      consolidation_slice w session archive_all := by
  unfold consolidate_memory
  cases hs : consolidation_slice w session archive_all with
  | none => rfl
  | some old =>
    cases chat with
    | error e => rfl
    | ok content =>
      simp only []
      by_cases ht : pyStrip (content.getD "") = ""
      · simp [ht]
      · simp only [if_neg ht]
        cases json_loads (if startsWithList ("```".data) (pyStrip (content.getD "")).data
            then strip_code_fences (pyStrip (content.getD "")) else pyStrip (content.getD ""))
          with
        | obj he hu => rfl
        | other => rfl

/-- C8: the `/new` command snapshots the session's messages before the live
session is cleared and invalidated; the detached archive-all consolidation
job operates exactly on that snapshot (its transcript neither loses nor
duplicates a message); the command is answered synchronously on the same
channel/chat id with no provider call in the turn; and a message appended
immediately afterwards lands only in the fresh live session. -/
theorem new_command_snapshot_before_clear (msg : InboundMessage) (session : Session)
    (json_loads : String → JsonValue) (chat : Except String (Option String))
    (w : Nat) (memory : MemoryState) (m : SessMsg) :
    (handle_new_command msg session).job_session.messages = session.messages ∧
    (handle_new_command msg session).live_session.messages = [] ∧
    (handle_new_command msg session).live_session.last_consolidated = 0 ∧
    (handle_new_command msg session).provider_calls = 0 ∧
    (handle_new_command msg session).reply.channel = msg.channel ∧
    (handle_new_command msg session).reply.chat_id = msg.chat_id ∧
    (handle_new_command msg session).reply.content ≠ "" ∧
    (consolidate_memory json_loads chat w memory (handle_new_command msg session).job_session
        true).providerSlice.map transcript_lines =
      some (transcript_lines session.messages) ∧
    (add_message (handle_new_command msg session).live_session m).messages = [m] := by
  refine ⟨rfl, rfl, rfl, rfl, rfl, rfl,
    by show ("New session started. Memory consolidation in progress." : String) ≠ ""; decide,
    ?_, rfl⟩
  rw [consolidate_providerSlice]
  simp [consolidation_slice, handle_new_command]

/-- Helper: a URL that resolves to a private address fails validation. -/
theorem validate_url_private_target (resolver : String → List String)
    (target host ip : String)
    (hscheme : (urlparse target).scheme = "http" ∨ (urlparse target).scheme = "https")
    (hnetloc : (urlparse target).netloc ≠ "")
    (hhost : (urlparse target).hostname = some host)
    (hip : ip ∈ resolver (toLowerStr host))
    (hpriv : is_private_ip ip = true) :
    (validate_url resolver target).1 = false := by
  simp only [validate_url, hhost]
  rw [if_neg (by tauto)]
  rw [if_neg hnetloc]
  cases hb : BLOCKED_HOSTNAMES.contains (toLowerStr host) with
  | true => simp only [hb]; rfl
  | false =>
    rw [if_neg (by decide : ¬ (false = true)), if_neg (List.ne_nil_of_mem hip)]
    have hany : ((resolver (toLowerStr host)).any fun s => is_private_ip s) = true :=
      List.any_eq_true.mpr ⟨ip, hip, hpriv⟩
    rw [if_pos hany]

/-- Helper: every URL on the request trace of the redirect loop passed
validation, provided the starting URL did. -/
theorem fetch_trace_validated (resolver : String → List String) (http : String → HttpResponse) :
    ∀ (fuel : Nat) (url : String) (n : Nat), MAX_REDIRECTS + 1 - n ≤ fuel →
      (validate_url resolver url).1 = true →
      ∀ u ∈ (fetch_with_redirect_validation resolver http url n).2,
        (validate_url resolver u).1 = true := by
  intro fuel
  induction fuel with
  | zero =>
    intro url n hn hv u hu
    rw [fetch_with_redirect_validation.eq_def] at hu
    rw [dif_pos (by omega : MAX_REDIRECTS < n)] at hu
    simp at hu
  | succ fuel ih =>
    intro url n hn hv u hu
    rw [fetch_with_redirect_validation.eq_def] at hu
    by_cases hstop : MAX_REDIRECTS < n
    · rw [dif_pos hstop] at hu
      simp at hu
    · rw [dif_neg hstop] at hu
      by_cases hred : (http url).status_code ∈ REDIRECT_STATUSES
      · rw [if_pos hred] at hu
        cases hloc : (http url).location with
        | none =>
          rw [hloc] at hu
          simp only [List.mem_singleton] at hu
          exact hu ▸ hv
        | some target =>
          rw [hloc] at hu
          by_cases hvt : (validate_url resolver target).1
          · simp only [hvt, if_true] at hu
            rcases List.mem_cons.mp hu with rfl | hrest
            · exact hv
            · exact ih target (n + 1) (by omega) hvt u hrest
          · simp only [Bool.not_eq_true] at hvt
            simp only [hvt, Bool.false_eq_true, if_false, List.mem_singleton] at hu
            exact hu ▸ hv
      · rw [if_neg hred] at hu
        simp only [List.mem_singleton] at hu
        exact hu ▸ hv

/-- C1: during one web fetch, every HTTP request issued — the initial one
and each redirect hop — targets a URL that passed `_validate_url` under the
same SSRF policy; in particular, when a redirect `Location` targets a host
resolving to a private/internal address, the fetch fails even though the
initial URL passed validation. -/
theorem web_fetch_validates_every_request (resolver : String → List String)
    (http : String → HttpResponse) (url target host ip : String)
    (hinit : (validate_url resolver url).1 = true)
    (hred : (http url).status_code ∈ REDIRECT_STATUSES)
    (hloc : (http url).location = some target)
    (hscheme : (urlparse target).scheme = "http" ∨ (urlparse target).scheme = "https")
    (hnetloc : (urlparse target).netloc ≠ "")
    (hhost : (urlparse target).hostname = some host)
    (hip : ip ∈ resolver (toLowerStr host))
    (hpriv : is_private_ip ip = true) :
    (∀ u ∈ (web_fetch resolver http url).2, (validate_url resolver u).1 = true) ∧
    (web_fetch resolver http url).1 =
      Except.error ("Redirect target validation failed: " ++ (validate_url resolver target).2) := by
  have hvt : (validate_url resolver target).1 = false :=
    validate_url_private_target resolver target host ip hscheme hnetloc hhost hip hpriv
  constructor
  · intro u hu
    simp only [web_fetch, hinit, if_true] at hu
    exact fetch_trace_validated resolver http (MAX_REDIRECTS + 1) url 0 (by omega) hinit u hu
  · simp only [web_fetch, hinit, if_true]
    rw [fetch_with_redirect_validation.eq_def]
    rw [dif_neg (by decide : ¬ MAX_REDIRECTS < 0)]
    rw [if_pos hred, hloc]
    simp [hvt]

/-- Witness for C1: a public URL whose server redirects to a host resolving
to `10.0.0.1` makes the fetch fail on the redirect hop. -/
theorem web_fetch_validates_every_request_witness :
    (web_fetch
        (fun h => if h = "pub" then ["8.8.8.8"] else if h = "prv" then ["10.0.0.1"] else [])
        (fun u => if u = "http://pub/" then ⟨302, some "http://prv/"⟩ else ⟨200, none⟩)
        "http://pub/").1 =
      Except.error ("Redirect target validation failed: " ++
        (validate_url
          (fun h => if h = "pub" then ["8.8.8.8"] else if h = "prv" then ["10.0.0.1"] else [])
          "http://prv/").2) :=
  (web_fetch_validates_every_request
    (fun h => if h = "pub" then ["8.8.8.8"] else if h = "prv" then ["10.0.0.1"] else [])
    (fun u => if u = "http://pub/" then ⟨302, some "http://prv/"⟩ else ⟨200, none⟩)
    "http://pub/" "http://prv/" "prv" "10.0.0.1"
    (by decide) (by decide) (by decide) (by decide) (by decide) (by decide) (by decide)
    (by decide)).2

/-- Helper: the request trace of the redirect loop is bounded by the
remaining redirect budget. -/
theorem fetch_trace_length (resolver : String → List String) (http : String → HttpResponse) :
    ∀ (fuel : Nat) (url : String) (n : Nat), MAX_REDIRECTS + 1 - n ≤ fuel →
      (fetch_with_redirect_validation resolver http url n).2.length ≤ MAX_REDIRECTS + 1 - n := by
  intro fuel
  induction fuel with
  | zero =>
    intro url n hn
    rw [fetch_with_redirect_validation.eq_def]
    rw [dif_pos (by omega : MAX_REDIRECTS < n)]
    simp
  | succ fuel ih =>
    intro url n hn
    rw [fetch_with_redirect_validation.eq_def]
    by_cases hstop : MAX_REDIRECTS < n
    · rw [dif_pos hstop]; simp
    · rw [dif_neg hstop]
      by_cases hred : (http url).status_code ∈ REDIRECT_STATUSES
      · rw [if_pos hred]
        cases hloc : (http url).location with
        | none => simp; omega
        | some target =>
          by_cases hvt : (validate_url resolver target).1
          · simp only [hvt, if_true, List.length_cons]
            have := ih target (n + 1) (by omega)
            omega
          · simp only [Bool.not_eq_true] at hvt
            simp only [hvt, Bool.false_eq_true, if_false, List.length_singleton]
            omega
      · rw [if_neg hred]
        simp
        omega

/-- Helper: one redirect step of the loop under a valid redirect target. -/
theorem fetch_redirect_step (resolver : String → List String) (http : String → HttpResponse)
    (url target : String) (n : Nat)
    (hn : ¬ MAX_REDIRECTS < n)
    (hred : (http url).status_code ∈ REDIRECT_STATUSES)
    (hloc : (http url).location = some target)
    (hvt : (validate_url resolver target).1 = true) :
    fetch_with_redirect_validation resolver http url n =
      ((fetch_with_redirect_validation resolver http target (n + 1)).1,
        url :: (fetch_with_redirect_validation resolver http target (n + 1)).2) := by
  conv_lhs => rw [fetch_with_redirect_validation.eq_def]
  rw [dif_neg hn, if_pos hred, hloc]
  simp [hvt]

/-- Helper: the loop fails hard once the redirect budget is exceeded. -/
theorem fetch_too_many_redirects (resolver : String → List String) (http : String → HttpResponse)
    (url : String) (n : Nat) (hn : MAX_REDIRECTS < n) :
    fetch_with_redirect_validation resolver http url n =
      (Except.error ("Too many redirects (max " ++ toString MAX_REDIRECTS ++ ")"), []) := by
  rw [fetch_with_redirect_validation.eq_def, dif_pos hn]

/-- C5: the number of requests issued by one fetch never exceeds
`MAX_REDIRECTS + 1` (so at most `MAX_REDIRECTS` redirect hops are
followed), and a redirect chain of length `MAX_REDIRECTS + 1` makes the
fetch fail with the bounded-depth too-many-redirects error instead of
returning content. -/
theorem web_fetch_redirect_cap (resolver : String → List String) (http : String → HttpResponse)
    (url : String) (f : Nat → String)
    (hf0 : (validate_url resolver (f 0)).1 = true)
    (hchain : ∀ i < MAX_REDIRECTS + 1,
      (http (f i)).status_code ∈ REDIRECT_STATUSES ∧
      (http (f i)).location = some (f (i + 1)) ∧
      (validate_url resolver (f (i + 1))).1 = true) :
    (web_fetch resolver http url).2.length ≤ MAX_REDIRECTS + 1 ∧
    (web_fetch resolver http (f 0)).1 =
      Except.error ("Too many redirects (max " ++ toString MAX_REDIRECTS ++ ")") := by
  constructor
  · by_cases hv : (validate_url resolver url).1
    · simp only [web_fetch, hv, if_true]
      have := fetch_trace_length resolver http (MAX_REDIRECTS + 1) url 0 (by omega)
      omega
    · simp only [Bool.not_eq_true] at hv
      simp [web_fetch, hv]
  · have key : ∀ j, j ≤ MAX_REDIRECTS + 1 →
        (fetch_with_redirect_validation resolver http (f 0) 0).1 =
          (fetch_with_redirect_validation resolver http (f j) j).1 := by
      intro j
      induction j with
      | zero => intro _; rfl
      | succ j ih =>
        intro hj
        obtain ⟨h1, h2, h3⟩ := hchain j (by omega)
        rw [ih (by omega),
          fetch_redirect_step resolver http (f j) (f (j + 1)) j (by omega) h1 h2 h3]
    simp only [web_fetch, hf0, if_true]
    rw [key (MAX_REDIRECTS + 1) le_rfl,
      fetch_too_many_redirects resolver http _ _ (by omega)]

/-- Witness for C5: a server that always redirects (`u` to `u ++ "x"`)
exhausts the redirect budget and fails with the too-many-redirects error. -/
theorem web_fetch_redirect_cap_witness :
    (web_fetch (fun _ => ["9.9.9.9"]) (fun u => ⟨302, some (u ++ "x")⟩)
        ((fun i => "http://e/" ++ ofChars (List.replicate i 'x')) 0)).1 =
      Except.error ("Too many redirects (max " ++ toString MAX_REDIRECTS ++ ")") :=
  (web_fetch_redirect_cap (fun _ => ["9.9.9.9"]) (fun u => ⟨302, some (u ++ "x")⟩)
    ((fun i => "http://e/" ++ ofChars (List.replicate i 'x')) 0)
    (fun i => "http://e/" ++ ofChars (List.replicate i 'x'))
    (by decide) (by decide)).2

/-- Witness for C8: archiving a one-message session via `/new` hands
exactly that message to the detached job. -/
theorem new_command_snapshot_before_clear_witness :
    (handle_new_command ⟨"cli", "u", "c", "/new"⟩
        ⟨"k", [⟨"user", "hi", none, none⟩], 0⟩).job_session.messages =
      ([⟨"user", "hi", none, none⟩] : List SessMsg) ∧
    (consolidate_memory (fun _ => JsonValue.other) (Except.error "e") 50 ⟨"", []⟩
        (handle_new_command ⟨"cli", "u", "c", "/new"⟩
          ⟨"k", [⟨"user", "hi", none, none⟩], 0⟩).job_session
        true).providerSlice.map transcript_lines =
      some (transcript_lines [⟨"user", "hi", none, none⟩]) := by
  have h := new_command_snapshot_before_clear ⟨"cli", "u", "c", "/new"⟩
    ⟨"k", [⟨"user", "hi", none, none⟩], 0⟩ (fun _ => JsonValue.other) (Except.error "e")
    50 ⟨"", []⟩ ⟨"user", "hi", none, none⟩
  exact ⟨h.1, h.2.2.2.2.2.2.2.1⟩

/-- Helper: the number of provider calls performed by the iteration loop is
bounded by the remaining iteration budget. -/
theorem run_agent_loop_aux_calls (provider : List ChatMsg → ProviderResponse)
    (exec_tool : ToolCall → String) (max_iterations : Nat) :
    ∀ (fuel : Nat) (messages : List ChatMsg) (iteration : Nat) (tools_used : List String)
      (provider_calls : Nat), max_iterations - iteration ≤ fuel →
      (run_agent_loop_aux provider exec_tool max_iterations messages iteration tools_used
          provider_calls).provider_calls ≤
        provider_calls + (max_iterations - iteration) := by
  intro fuel
  induction fuel with
  | zero =>
    intro msgs it tu pc h
    rw [run_agent_loop_aux.eq_def, dif_neg (by omega : ¬ it < max_iterations)]
    simp
  | succ fuel ih =>
    intro msgs it tu pc h
    rw [run_agent_loop_aux.eq_def]
    by_cases hit : it < max_iterations
    · rw [dif_pos hit]
      by_cases htc : (provider msgs).has_tool_calls
      · simp only [htc, if_true]
        refine le_trans (ih _ (it + 1) _ (pc + 1) (by omega)) (by omega)
      · simp only [Bool.not_eq_true] at htc
        simp only [htc, Bool.false_eq_true, if_false]
        show pc + 1 ≤ pc + (max_iterations - it)
        omega
    · rw [dif_neg hit]
      simp

/-- C3: for every single inbound message the iteration loop calls the
provider at most `max_iterations` times, and whenever the loop ends without
terminal content (in particular when the budget is exhausted with every
response carrying tool calls) the reply delivered is the non-empty fallback
string substituted by `_process_message`. -/
theorem agent_loop_budget_and_fallback (provider : List ChatMsg → ProviderResponse)
    (exec_tool : ToolCall → String) (max_iterations : Nat) (initial_messages : List ChatMsg) :
    (run_agent_loop provider exec_tool max_iterations initial_messages).provider_calls ≤
      max_iterations ∧
    ((run_agent_loop provider exec_tool max_iterations initial_messages).final_content = none →
      final_reply
          (run_agent_loop provider exec_tool max_iterations initial_messages).final_content =
        "I\x27ve completed processing but have no response to give." ∧
      ("I\x27ve completed processing but have no response to give." : String) ≠ "") := by
  constructor
  · have := run_agent_loop_aux_calls provider exec_tool max_iterations max_iterations
      initial_messages 0 [] 0 (by omega)
    simpa [run_agent_loop] using this
  · intro h
    rw [h]
    exact ⟨rfl, by decide⟩

/-- Witness for C3: with a zero iteration budget the loop performs no
provider call, ends without terminal content, and the fallback string is
substituted. -/
theorem agent_loop_budget_and_fallback_witness :
    (run_agent_loop (fun _ => ⟨some "ok", [], false, none⟩) (fun _ => "") 0 []).provider_calls
      ≤ 0 ∧
    final_reply (run_agent_loop (fun _ => ⟨some "ok", [], false, none⟩)
        (fun _ => "") 0 []).final_content =
      "I\x27ve completed processing but have no response to give." := by
  have h := agent_loop_budget_and_fallback (fun _ => ⟨some "ok", [], false, none⟩)
    (fun _ => "") 0 []
  have hnone : (run_agent_loop (fun _ => ⟨some "ok", [], false, none⟩)
      (fun _ => "") 0 []).final_content = none := by
    unfold run_agent_loop
    rw [run_agent_loop_aux.eq_def, dif_neg (by omega : ¬ (0 : Nat) < 0)]
  exact ⟨h.1, (h.2 hnone).1⟩

/-- Helper: the Python slice `l[start:-keep]` with `keep ≥ 1` is the
take-then-drop slice `l[start : len l - keep]`. -/
theorem pySlice_neg {α : Type} (l : List α) (start keep : Nat) (hk : 1 ≤ keep) :
    pySlice l start (-(keep : Int)) = (l.take (l.length - keep)).drop start := by
  unfold pySlice
  rw [if_pos (by omega : -(keep : Int) < 0)]
  simp

/-- Helper: for a window of at least 2, the windowed slice selection equals
the specification slice `messages[last_consolidated : len - keep_count]`,
with the empty slice meaning no provider call. -/
theorem consolidation_slice_windowed (w : Nat) (session : Session) (hw : 2 ≤ w) :
    consolidation_slice w session false =
      (if (session.messages.take (session.messages.length - w / 2)).drop
            session.last_consolidated = []
        then none
        else some ((session.messages.take (session.messages.length - w / 2)).drop
          session.last_consolidated)) := by
  have hk : 1 ≤ w / 2 := by omega
  unfold consolidation_slice
  rw [if_neg (by decide : ¬ (false = true))]
  simp only [pySlice_neg session.messages session.last_consolidated (w / 2) hk]
  by_cases h1 : session.messages.length ≤ w / 2
  · rw [if_pos h1]
    have h0 : session.messages.length - w / 2 = 0 := by omega
    rw [h0]
    simp
  · rw [if_neg h1]
    by_cases h2 : session.messages.length ≤ session.last_consolidated
    · rw [if_pos h2]
      have hnil : (session.messages.take (session.messages.length - w / 2)).drop
          session.last_consolidated = [] := by
        apply List.drop_eq_nil_of_le
        rw [List.length_take]
        omega
      rw [if_pos hnil]
    · rw [if_neg h2]

/-- C6 (amended: window at least 2): for every reactive consolidation run
with `memory_window ≥ 2`, `keep_count` is half the window and the slice
handed to the provider is exactly
`messages[last_consolidated : len(messages) - keep_count]`; when that slice
is empty the job is a no-op, returning without calling the provider or
mutating the session or memory. -/
theorem consolidate_reactive_policy (json_loads : String → JsonValue)
    (chat : Except String (Option String)) (w : Nat) (memory : MemoryState)
    (session : Session) (hw : 2 ≤ w) :
    ((session.messages.take (session.messages.length - w / 2)).drop
        session.last_consolidated = [] →
      consolidate_memory json_loads chat w memory session false =
        ⟨session, memory, none⟩) ∧
    ((session.messages.take (session.messages.length - w / 2)).drop
        session.last_consolidated ≠ [] →
      (consolidate_memory json_loads chat w memory session false).providerSlice =
        some ((session.messages.take (session.messages.length - w / 2)).drop
          session.last_consolidated)) := by
  constructor
  · intro h
    unfold consolidate_memory
    rw [consolidation_slice_windowed w session hw, if_pos h]
  · intro h
    rw [consolidate_providerSlice, consolidation_slice_windowed w session hw, if_neg h]

/-- Witness for C6 (amended): a session holding 51 messages with a window
of 50 passes the reactive trigger and is consolidated over
`messages[0:-25]`, i.e. the first 26 messages. -/
theorem consolidate_reactive_policy_witness :
    (consolidate_memory (fun _ => JsonValue.other) (Except.error "boom") 50 ⟨"", []⟩
        ⟨"k", List.replicate 51 ⟨"user", "m", none, none⟩, 0⟩ false).providerSlice =
      some (((List.replicate 51 (⟨"user", "m", none, none⟩ : SessMsg)).take
        ((List.replicate 51 (⟨"user", "m", none, none⟩ : SessMsg)).length - 50 / 2)).drop 0) ∧
    consolidation_trigger 50 ⟨"k", List.replicate 51 ⟨"user", "m", none, none⟩, 0⟩ = true := by
  refine ⟨?_, by decide⟩
  exact (consolidate_reactive_policy (fun _ => JsonValue.other) (Except.error "boom") 50
    ⟨"", []⟩ ⟨"k", List.replicate 51 ⟨"user", "m", none, none⟩, 0⟩ (by omega)).2 (by decide)

/-- Counterexample for C6 as stated: with `memory_window = 1` (so
`keep_count = 0`), a reactive run over a 2-message session consolidates
nothing (the Python slice `messages[0:-0]` is empty, so the provider is
never called) although the claimed slice
`messages[last_consolidated : len - keep_count]` is the whole non-empty
message list. -/
theorem consolidate_reactive_policy_cex :
    (consolidate_memory (fun _ => JsonValue.obj (some "e") (some "u"))
        (Except.ok (some "\x7b\x7d")) 1 ⟨"", []⟩
        ⟨"k", [⟨"user", "hello", none, none⟩, ⟨"assistant", "hi", none, none⟩], 0⟩
        false).providerSlice = none ∧
    (([⟨"user", "hello", none, none⟩, ⟨"assistant", "hi", none, none⟩] : List SessMsg).take
        (2 - 1 / 2)).drop 0 ≠ [] := by
  decide

/-- C7: if the provider call or the parsing of its response fails during a
consolidation run (exception, empty response, or non-dict result) the job
ends with the session — in particular `last_consolidated` — and the memory
unchanged; the cursor is advanced only on success, to
`len(messages) - keep_count` for a windowed run or to zero for an
archive-all run. -/
theorem consolidate_cursor_only_on_success (json_loads : String → JsonValue)
    (chat : Except String (Option String)) (w : Nat) (memory : MemoryState)
    (session : Session) (archive_all : Bool) :
    (chat_parse_ok json_loads chat = false →
      (consolidate_memory json_loads chat w memory session archive_all).session = session ∧
      (consolidate_memory json_loads chat w memory session archive_all).memory = memory) ∧
    (chat_parse_ok json_loads chat = true →
      (consolidate_memory json_loads chat w memory session
          archive_all).providerSlice.isSome = true →
      (consolidate_memory json_loads chat w memory session
          archive_all).session.last_consolidated =
        if archive_all then 0 else session.messages.length - w / 2) := by
  cases hs : consolidation_slice w session archive_all with
  | none =>
    constructor
    · intro _
      unfold consolidate_memory
      rw [hs]
      exact ⟨rfl, rfl⟩
    · intro _ h2
      rw [consolidate_providerSlice, hs] at h2
      simp at h2
  | some old =>
    cases chat with
    | error e =>
      constructor
      · intro _
        unfold consolidate_memory
        rw [hs]
        exact ⟨rfl, rfl⟩
      · intro h1 _
        simp [chat_parse_ok] at h1
    | ok content =>
      by_cases ht : pyStrip (content.getD "") = ""
      · constructor
        · intro _
          unfold consolidate_memory
          rw [hs]
          simp [ht]
        · intro h1 _
          simp [chat_parse_ok, ht] at h1
      · cases hj : json_loads (if startsWithList ("```".data) (pyStrip (content.getD "")).data
            then strip_code_fences (pyStrip (content.getD "")) else pyStrip (content.getD ""))
          with
        | other =>
          constructor
          · intro _
            unfold consolidate_memory
            rw [hs]
            simp [ht, hj]
          · intro h1 _
            simp [chat_parse_ok, ht, hj] at h1
        | obj he hu =>
          constructor
          · intro h1
            simp [chat_parse_ok, ht, hj] at h1
          · intro _ _
            unfold consolidate_memory
            rw [hs]
            simp only [ht, hj]
            cases archive_all <;> simp [ht, hj]

/-- Witness for C7: a successful windowed run over 5 messages with window 4
advances the cursor to `5 - 2 = 3`. -/
theorem consolidate_cursor_only_on_success_witness :
    (consolidate_memory (fun _ => JsonValue.obj (some "e") (some "u"))
        (Except.ok (some "x")) 4 ⟨"", []⟩
        ⟨"k", List.replicate 5 ⟨"user", "m", none, none⟩, 0⟩
        false).session.last_consolidated =
      if (false : Bool) then 0
      else (List.replicate 5 (⟨"user", "m", none, none⟩ : SessMsg)).length - 4 / 2 :=
  (consolidate_cursor_only_on_success (fun _ => JsonValue.obj (some "e") (some "u"))
    (Except.ok (some "x")) 4 ⟨"", []⟩
    ⟨"k", List.replicate 5 ⟨"user", "m", none, none⟩, 0⟩ false).2 (by decide) (by decide)

/-- Helper: with `keep_count = 0` (window below 2) the windowed slice
selection always returns `none`: the Python slice `messages[lc:-0]` is
empty. -/
theorem consolidation_slice_small (w : Nat) (session : Session) (hw : w / 2 = 0) :
    consolidation_slice w session false = none := by
  unfold consolidation_slice
  rw [if_neg (by decide : ¬ (false = true))]
  simp only [hw]
  by_cases h1 : session.messages.length ≤ 0
  · rw [if_pos h1]
  · rw [if_neg h1]
    by_cases h2 : session.messages.length ≤ session.last_consolidated
    · rw [if_pos h2]
    · rw [if_neg h2]
      simp [pySlice]

/-- Helper: a windowed run that reaches its provider call starts strictly
below the target cursor `len - keep_count`. -/
theorem consolidation_slice_windowed_lt (w : Nat) (session : Session) (old : List SessMsg)
    (hs : consolidation_slice w session false = some old) :
    session.last_consolidated < session.messages.length - w / 2 := by
  by_cases hw : 2 ≤ w
  · rw [consolidation_slice_windowed w session hw] at hs
    by_cases hnil : (session.messages.take (session.messages.length - w / 2)).drop
        session.last_consolidated = []
    · rw [if_pos hnil] at hs
      cases hs
    · have h1 : ¬ (session.messages.take (session.messages.length - w / 2)).length ≤
          session.last_consolidated := fun hle => hnil (List.drop_eq_nil_of_le hle)
      rw [List.length_take] at h1
      omega
  · rw [consolidation_slice_small w session (by omega)] at hs
    cases hs

/-- C9: the consolidation job never mutates the message list, keeps
`0 ≤ last_consolidated ≤ len(messages)`, and never decreases the cursor
except for the archive-all reset that sets it to zero. -/
theorem consolidate_cursor_invariant (json_loads : String → JsonValue)
    (chat : Except String (Option String)) (w : Nat) (memory : MemoryState)
    (session : Session) (archive_all : Bool)
    (h : session.last_consolidated ≤ session.messages.length) :
    (consolidate_memory json_loads chat w memory session archive_all).session.messages =
      session.messages ∧
    (consolidate_memory json_loads chat w memory session
        archive_all).session.last_consolidated ≤ session.messages.length ∧
    (session.last_consolidated ≤
        (consolidate_memory json_loads chat w memory session
          archive_all).session.last_consolidated ∨
      (archive_all = true ∧
        (consolidate_memory json_loads chat w memory session
          archive_all).session.last_consolidated = 0)) := by
  cases hs : consolidation_slice w session archive_all with
  | none =>
    unfold consolidate_memory
    rw [hs]
    exact ⟨rfl, h, Or.inl le_rfl⟩
  | some old =>
    cases chat with
    | error e =>
      unfold consolidate_memory
      rw [hs]
      exact ⟨rfl, h, Or.inl le_rfl⟩
    | ok content =>
      by_cases ht : pyStrip (content.getD "") = ""
      · have hres : consolidate_memory json_loads (Except.ok content) w memory session
            archive_all = ⟨session, memory, some old⟩ := by
          unfold consolidate_memory
          rw [hs]
          simp [ht]
        rw [hres]
        exact ⟨rfl, h, Or.inl le_rfl⟩
      · cases hj : json_loads (if startsWithList ("```".data) (pyStrip (content.getD "")).data
            then strip_code_fences (pyStrip (content.getD "")) else pyStrip (content.getD ""))
          with
        | other =>
          have hres : consolidate_memory json_loads (Except.ok content) w memory session
              archive_all = ⟨session, memory, some old⟩ := by
            unfold consolidate_memory
            rw [hs]
            simp [ht, hj]
          rw [hres]
          exact ⟨rfl, h, Or.inl le_rfl⟩
        | obj he hu =>
          have hmsg : (consolidate_memory json_loads (Except.ok content) w memory session
              archive_all).session.messages = session.messages := by
            unfold consolidate_memory
            rw [hs]
            simp [ht, hj]
          have hlc : (consolidate_memory json_loads (Except.ok content) w memory session
              archive_all).session.last_consolidated =
                if archive_all then 0 else session.messages.length - w / 2 := by
            unfold consolidate_memory
            rw [hs]
            simp only [ht, hj]
            cases archive_all <;> simp [ht, hj]
          cases harch : archive_all with
          | true =>
            rw [harch] at hlc hmsg
            simp only [if_true] at hlc
            exact ⟨hmsg, by omega, Or.inr ⟨rfl, hlc⟩⟩
          | false =>
            rw [harch] at hlc hmsg hs
            simp only [Bool.false_eq_true, if_false] at hlc
            have hlt := consolidation_slice_windowed_lt w session old hs
            exact ⟨hmsg, by omega, Or.inl (by omega)⟩

/-- Witness for C9: a windowed run on a 3-message session with cursor 1
keeps the message list, stays within bounds and does not decrease the
cursor. -/
theorem consolidate_cursor_invariant_witness :
    (consolidate_memory (fun _ => JsonValue.other) (Except.error "x") 4 ⟨"", []⟩
        ⟨"k", List.replicate 3 ⟨"user", "m", none, none⟩, 1⟩ false).session.messages =
      (⟨"k", List.replicate 3 ⟨"user", "m", none, none⟩, 1⟩ : Session).messages ∧
    (consolidate_memory (fun _ => JsonValue.other) (Except.error "x") 4 ⟨"", []⟩
        ⟨"k", List.replicate 3 ⟨"user", "m", none, none⟩, 1⟩
        false).session.last_consolidated ≤
      (⟨"k", List.replicate 3 ⟨"user", "m", none, none⟩, 1⟩ : Session).messages.length ∧
    ((⟨"k", List.replicate 3 ⟨"user", "m", none, none⟩, 1⟩ : Session).last_consolidated ≤
        (consolidate_memory (fun _ => JsonValue.other) (Except.error "x") 4 ⟨"", []⟩
          ⟨"k", List.replicate 3 ⟨"user", "m", none, none⟩, 1⟩
          false).session.last_consolidated ∨
      (false = true ∧
        (consolidate_memory (fun _ => JsonValue.other) (Except.error "x") 4 ⟨"", []⟩
          ⟨"k", List.replicate 3 ⟨"user", "m", none, none⟩, 1⟩
          false).session.last_consolidated = 0)) :=
  consolidate_cursor_invariant (fun _ => JsonValue.other) (Except.error "x") 4 ⟨"", []⟩
    ⟨"k", List.replicate 3 ⟨"user", "m", none, none⟩, 1⟩ false (by decide)

end Nanobot
